import Mathlib

/-!
Verification of the graph data model and multi-mode shortest-path engine of a
GPS route optimizer.  The definitions below are a shallow embedding of
`src/graph.h` / `src/graph.cpp`:

* doubles are embedded as exact rationals (`ℚ`);
* `std::unordered_map` is embedded as an association list with C++
  `operator[]` semantics: a read of a missing key yields the value-initialized
  default (`0.0` for `double`, `0` for `long long`), which is essential to
  modelling `Graph::dijkstra` faithfully;
* the stored `std::numeric_limits<double>::infinity()` sentinel in the
  distance table is embedded as `Option ℚ` with `none` standing for the
  stored infinity, while a read of an absent key gives `some 0`
  (value-initialized `0.0`), exactly as `operator[]` does;
* the unbounded `while` loops of `Graph::dijkstra` are embedded with explicit
  fuel; running out of fuel yields `none`, so `none` marks an execution the
  model could not complete (in particular a diverging one when the result is
  `none` for every fuel);
* the Mersenne-twister draws of `applyLearnedPatterns` are embedded as an
  oracle assigning each edge position its uniform sample.
-/

/-- Model of `struct Node` from `graph.h`. -/
structure Node where
  id : Int
  lat : ℚ
  lon : ℚ
  deriving DecidableEq

/-- Model of `struct Edge` from `graph.h`.  The field `to` of the C++ struct is
renamed `to_id`: `to` is a reserved token in this Lean environment. -/
structure Edge where
  to_id : Int
  distance : ℚ
  speed_limit : ℚ
  road_type : String
  crowd_multiplier : ℚ
  deriving DecidableEq

/-- Model of `enum class RouteMode` from `graph.h`. -/
inductive RouteMode where
  | DISTANCE
  | SPEED_LIMIT
  | LEARNED
  deriving DecidableEq

/-- Model of `struct RouteResult` from `graph.h`. -/
structure RouteResult where
  path : List Int
  total_distance : ℚ
  estimated_time : ℚ
  mode : RouteMode
  mode_name : String
  deriving DecidableEq

/-- Association-list read with an explicit default, modelling
`std::unordered_map::operator[]` when used as a read: an absent key yields the
value-initialized default. -/
def alookup (dflt : α) : List (Int × α) → Int → α
  | [], _ => dflt
  | (k', v) :: rest, k => if k' = k then v else alookup dflt rest k

/-- Association-list write, modelling `map[k] = v`. -/
def aupdate : List (Int × α) → Int → α → List (Int × α)
  | [], k, v => [(k, v)]
  | (k', v') :: rest, k, v =>
    if k' = k then (k, v) :: rest else (k', v') :: aupdate rest k v

/-- The two maps owned by `class Graph`. -/
structure Graph where
  nodes : List (Int × Node)
  adjacency_list : List (Int × List Edge)
  deriving DecidableEq

/-- A default-constructed `Graph`. -/
def Graph.empty : Graph := { nodes := [], adjacency_list := [] }

/-- Model of `Graph::addNode`, the upsert `nodes[id] = ...`. -/
def Graph.addNode (g : Graph) (id : Int) (lat lon : ℚ) : Graph :=
  { g with nodes := aupdate g.nodes id { id := id, lat := lat, lon := lon } }

/-- Model of `adjacency_list[from].push_back(edge)`: `operator[]` creates an empty
vector for an absent key, then the edge is appended. -/
def addEdgeAux (e : Edge) : List (Int × List Edge) → Int → List (Int × List Edge)
  | [], k => [(k, [e])]
  | (k', es) :: rest, k =>
    if k' = k then (k', es ++ [e]) :: rest else (k', es) :: addEdgeAux e rest k

/-- Model of `Graph::addEdge` from `graph.cpp`: the speed limit is derived inline from
the road type (default 50 km/h) and the edge is appended with crowd
multiplier 1.0.  (`from`/`to` are renamed `from_id`/`to_id`; `from` is a Lean
keyword.) -/
def Graph.addEdge (g : Graph) (from_id to_id : Int) (distance : ℚ)
    (road_type : String) : Graph :=
  let speed_limit : ℚ :=
    if road_type = "motorway" ∨ road_type = "motorway_link" then 100
    else if road_type = "trunk" ∨ road_type = "trunk_link" then 80
    else if road_type = "primary" ∨ road_type = "primary_link" then 65
    else if road_type = "secondary" then 55
    else if road_type = "tertiary" ∨ road_type = "residential" then 40
    else if road_type = "living_street" then 20
    else 50
  { g with
    adjacency_list := addEdgeAux
      { to_id := to_id, distance := distance, speed_limit := speed_limit,
        road_type := road_type, crowd_multiplier := 1 }
      g.adjacency_list from_id }

/-- Model of `Graph::getNode`: pointer-or-null becomes `Option`. -/
def Graph.getNode (g : Graph) (id : Int) : Option Node :=
  (g.nodes.find? (fun p => p.1 == id)).map Prod.snd

/-- Model of `Graph::getEdges`: pointer-or-null becomes `Option`. -/
def Graph.getEdges (g : Graph) (id : Int) : Option (List Edge) :=
  (g.adjacency_list.find? (fun p => p.1 == id)).map Prod.snd

/-- Model of `Graph::nodeCount`. -/
def Graph.nodeCount (g : Graph) : Nat := g.nodes.length

/-- Model of `Graph::edgeCount`: sums the per-node adjacency lengths. -/
def Graph.edgeCount (g : Graph) : Nat :=
  g.adjacency_list.foldl (fun acc p => acc + p.2.length) 0

/-- The body of the three sequential `if`s of `Graph::applyLearnedPatterns`
for one edge, given that edge's uniform draw `r`.  The three guards test
mutually exclusive road classes, so at most one `dis(gen)` call happens per
edge in the C++ and the chain below is equivalent to the three sequential
`if` statements. -/
def learnedUpdate (r : ℚ) (e : Edge) : Edge :=
  if (e.road_type = "motorway" ∨ e.road_type = "trunk") ∧ r < 0.05 then
    { e with crowd_multiplier := 0.6 }
  else if (e.road_type = "primary" ∨ e.road_type = "secondary") ∧ r < 0.03 then
    { e with crowd_multiplier := 1.4 }
  else if e.road_type = "residential" ∧ r < 0.02 then
    { e with crowd_multiplier := 1.2 }
  else e

/-- Applies `learnedUpdate` along one adjacency vector, feeding each edge its
own draw from the oracle. -/
def annotateEdges (draw : Nat → ℚ) : Nat → List Edge → List Edge
  | _, [] => []
  | i, e :: es => learnedUpdate (draw i) e :: annotateEdges draw (i + 1) es

/-- Model of `Graph::applyLearnedPatterns`, with the random draws made explicit: the
oracle `draw k i` is the uniform sample used for the edge at index `i` of
source node `k`.  Quantifying over `draw` covers every outcome of the
process-wide RNG. -/
def Graph.applyLearnedPatterns (g : Graph) (draw : Int → Nat → ℚ) : Graph :=
  { g with
    adjacency_list :=
      g.adjacency_list.map (fun p => (p.1, annotateEdges (draw p.1) 0 p.2)) }

/-- Model of `Graph::getTimeAdjustedSpeed` from `graph.cpp`. -/
def getTimeAdjustedSpeed (e : Edge) (hour_of_day : Int) : ℚ :=
  let base_speed := e.speed_limit
  if (7 ≤ hour_of_day ∧ hour_of_day ≤ 9) ∨ (17 ≤ hour_of_day ∧ hour_of_day ≤ 19) then
    if e.road_type = "motorway" ∨ e.road_type = "trunk" then base_speed * 0.4
    else if e.road_type = "primary" then base_speed * 0.6
    else if e.road_type = "secondary" ∨ e.road_type = "tertiary" then base_speed * 0.8
    else base_speed
  else base_speed

/-- Model of `Graph::calculateEdgeWeight` from `graph.cpp`. -/
def calculateEdgeWeight (e : Edge) (mode : RouteMode) (hour_of_day : Int) : ℚ :=
  match mode with
  | RouteMode.DISTANCE => e.distance
  | RouteMode.SPEED_LIMIT => e.distance / (e.speed_limit * 1000 / 3600)
  | RouteMode.LEARNED =>
    let adjusted_speed := getTimeAdjustedSpeed e hour_of_day * e.crowd_multiplier
    e.distance / (adjusted_speed * 1000 / 3600)

/-- The `mode_name` strings set by the `switch` in `Graph::dijkstra`. -/
def modeName : RouteMode → String
  | RouteMode.DISTANCE => "Pure Distance"
  | RouteMode.SPEED_LIMIT => "Speed Limit (Traditional GPS)"
  | RouteMode.LEARNED => "Learned Patterns (Advanced)"

/-- The distance table: values are `Option ℚ` with `none` standing for the
stored `infinity()`; reads of absent keys give `some 0` (value-initialized
`0.0`), as `operator[]` does. -/
abbrev DistMap := List (Int × Option ℚ)

/-- The predecessor table; reads of absent keys give `0` (value-initialized
`long long`). -/
abbrev PrevMap := List (Int × Int)

/-- The frontier: `std::priority_queue` of `(tentative distance, node id)`. -/
abbrev PQueue := List (ℚ × Int)

/-- Read of `distances[k]`. -/
def dlookup (dist : DistMap) (k : Int) : Option ℚ := alookup (some 0) dist k

/-- Read of `previous[k]`. -/
def plookup (prev : PrevMap) (k : Int) : Int := alookup 0 prev k

/-- Comparison `new_dist < distances[edge.to]` on doubles with an infinity sentinel. -/
def qltOpt (a : ℚ) (b : Option ℚ) : Bool :=
  match b with
  | none => true
  | some q => a < q

/-- Comparison `current_dist > distances[current_id]` (the stale-entry check). -/
def qgtOpt (a : ℚ) (b : Option ℚ) : Bool :=
  match b with
  | none => false
  | some q => q < a

/-- The minimum of the frontier under `std::greater` on
`std::pair<double, long long>`: lexicographic, smaller distance first, ties
broken by smaller node id. -/
def pqMin : (ℚ × Int) → PQueue → (ℚ × Int)
  | a, [] => a
  | a, b :: rest =>
    pqMin (if b.1 < a.1 ∨ (b.1 = a.1 ∧ b.2 < a.2) then b else a) rest

/-- Model of `pq.top(); pq.pop()`: extract the minimum frontier entry. -/
def popMin : PQueue → Option ((ℚ × Int) × PQueue)
  | [] => none
  | a :: rest =>
    let m := pqMin a rest
    some (m, (a :: rest).erase m)

/-- The inner `for (const auto& edge : *edges)` relaxation loop of
`Graph::dijkstra`. -/
def relaxEdges (mode : RouteMode) (hour : Int) (d : ℚ) (u : Int) :
    List Edge → PQueue → DistMap → PrevMap → PQueue × DistMap × PrevMap
  | [], pq, dist, prev => (pq, dist, prev)
  | e :: es, pq, dist, prev =>
    let nd := d + calculateEdgeWeight e mode hour
    if qltOpt nd (dlookup dist e.to_id) then
      relaxEdges mode hour d u es (pq ++ [(nd, e.to_id)])
        (aupdate dist e.to_id (some nd)) (aupdate prev e.to_id u)
    else
      relaxEdges mode hour d u es pq dist prev

/-- The main `while (!pq.empty())` loop of `Graph::dijkstra`, with fuel.
The early-exit check `current_id == end_id` costs no fuel (it is part of the
same iteration as the pop); exhausting the fuel with work remaining yields
`none`. -/
def dijkstraLoop (g : Graph) (mode : RouteMode) (hour : Int) (end_id : Int) :
    Nat → PQueue → DistMap → PrevMap → Option (DistMap × PrevMap)
  | fuel, pq, dist, prev =>
    match popMin pq with
    | none => some (dist, prev)
    | some ((d, u), pq') =>
      if u = end_id then some (dist, prev)
      else
        match fuel with
        | 0 => none
        | fuel' + 1 =>
          if qgtOpt d (dlookup dist u) then
            dijkstraLoop g mode hour end_id fuel' pq' dist prev
          else
            match g.getEdges u with
            | none => dijkstraLoop g mode hour end_id fuel' pq' dist prev
            | some es =>
              match relaxEdges mode hour d u es pq' dist prev with
              | (pq2, dist2, prev2) =>
                dijkstraLoop g mode hour end_id fuel' pq2 dist2 prev2

/-- The initial distance table: every node of the graph at infinity, then
`distances[start_id] = 0.0`. -/
def initDist (g : Graph) (start_id : Int) : DistMap :=
  aupdate (g.nodes.map (fun p => (p.1, (none : Option ℚ)))) start_id (some 0)

/-- The path-reconstruction `while (current != start_id)` loop, with fuel.
The loop pushes nodes walking predecessor links from `end` and finally pushes
`start` and reverses; the accumulator below builds the reversed list
directly. -/
def reconstructLoop (prev : PrevMap) (start_id : Int) :
    Nat → Int → List Int → Option (List Int)
  | fuel, current, acc =>
    if current = start_id then some (start_id :: acc)
    else
      match fuel with
      | 0 => none
      | fuel' + 1 =>
        reconstructLoop prev start_id fuel' (plookup prev current) (current :: acc)

/-- The metric-aggregation loop of `Graph::dijkstra`: for each consecutive
pair of path nodes, the first outgoing edge with matching target contributes
its stored distance and its crowd-adjusted, time-adjusted travel time. -/
def routeMetrics (g : Graph) (hour : Int) : List Int → ℚ × ℚ
  | u :: v :: rest =>
    let tail := routeMetrics g hour (v :: rest)
    match (g.getEdges u).bind (fun es => es.find? (fun e => e.to_id == v)) with
    | some e =>
      let speed := getTimeAdjustedSpeed e hour * e.crowd_multiplier
      (e.distance + tail.1, e.distance / (speed * 1000 / 3600) + tail.2)
    | none => tail
  | _ => (0, 0)

/-- The `RouteResult` returned on the `// No path found` branch. -/
def emptyResult (mode : RouteMode) : RouteResult :=
  { path := [], total_distance := 0, estimated_time := 0,
    mode := mode, mode_name := modeName mode }

/-- Model of `Graph::dijkstra` with explicit fuel for its two unbounded loops.
`none` means the model ran out of fuel, i.e. could not complete the
execution; a result that is `none` for every fuel is a diverging run. -/
def dijkstraFuel (f₁ f₂ : Nat) (g : Graph) (start_id end_id : Int)
    (mode : RouteMode) (hour_of_day : Int) : Option RouteResult :=
  match dijkstraLoop g mode hour_of_day end_id f₁
      [(0, start_id)] (initDist g start_id) [] with
  | none => none
  | some (dist, prev) =>
    if (dlookup dist end_id).isNone then some (emptyResult mode)
    else
      match reconstructLoop prev start_id f₂ end_id [] with
      | none => none
      | some path =>
        some { path := path,
               total_distance := (routeMetrics g hour_of_day path).1,
               estimated_time := (routeMetrics g hour_of_day path).2,
               mode := mode, mode_name := modeName mode }

/-- A fuel budget that always permits at least one loop iteration. -/
def fuelBound (g : Graph) : Nat := g.nodeCount + g.edgeCount + 1

/-- Model of `Graph::dijkstra`. -/
def Graph.dijkstra (g : Graph) (start_id end_id : Int) (mode : RouteMode)
    (hour_of_day : Int) : Option RouteResult :=
  dijkstraFuel (fuelBound g) (fuelBound g) g start_id end_id mode hour_of_day

/-! ## Specification-side definitions

These are written from the spec's words, to be compared with the definitions
above that were translated from the source. -/

/-- The spec's `RoadClassTable.speedLimitFor`: fixed mapping from road-class
tokens to nominal speed limits (km/h), unrecognized tokens resolving to the
documented default 50. -/
def speedLimitFor (road : String) : ℚ :=
  if road = "motorway" ∨ road = "motorway_link" then 100
  else if road = "trunk" ∨ road = "trunk_link" then 80
  else if road = "primary" ∨ road = "primary_link" then 65
  else if road = "secondary" then 55
  else if road = "tertiary" ∨ road = "residential" then 40
  else if road = "living_street" then 20
  else 50

/-- The spec's rush-hour factor: during hours {7,8,9} or {17,18,19},
motorway/trunk ×0.4, primary ×0.6, secondary/tertiary ×0.8, every other
class ×1.0; outside those ranges always 1.0. -/
def claimRushFactor (road : String) (h : Int) : ℚ :=
  if (7 ≤ h ∧ h ≤ 9) ∨ (17 ≤ h ∧ h ≤ 19) then
    if road = "motorway" ∨ road = "trunk" then 0.4
    else if road = "primary" then 0.6
    else if road = "secondary" ∨ road = "tertiary" then 0.8
    else 1
  else 1

/-- The first stored edge from `u` whose target is `v` (the edge the metric
loop of `Graph::dijkstra` picks for a consecutive path pair). -/
def firstEdgeTo (g : Graph) (u v : Int) : Option Edge :=
  (g.getEdges u).bind (fun es => es.find? (fun e => e.to_id == v))

/-- The spec's total distance of a path: the sum over consecutive pairs of
the constituent edge's stored distance in meters. -/
def claimDistanceSum (g : Graph) : List Int → ℚ
  | u :: v :: rest =>
    (match firstEdgeTo g u v with
     | some e => e.distance
     | none => 0) + claimDistanceSum g (v :: rest)
  | _ => 0

/-- The spec's estimated time of a path: the sum over consecutive pairs of
the edge's distance divided by `timeAdjustedSpeed(edge, hour) *
crowd_multiplier` converted from km/h to m/s — the Learned-style time. -/
def claimTimeSum (g : Graph) (hour : Int) : List Int → ℚ
  | u :: v :: rest =>
    (match firstEdgeTo g u v with
     | some e =>
       e.distance / (getTimeAdjustedSpeed e hour * e.crowd_multiplier * 1000 / 3600)
     | none => 0) + claimTimeSum g hour (v :: rest)
  | _ => 0

/-- A node identity is present in the graph's node store. -/
abbrev nodeKnown (g : Graph) (v : Int) : Prop := g.getNode v ≠ none

/-- Well-formed stored edge: non-negative distance, positive speed limit and
positive crowd multiplier. -/
abbrev edgeOK (e : Edge) : Prop :=
  0 ≤ e.distance ∧ 0 < e.speed_limit ∧ 0 < e.crowd_multiplier

/-- All stored edges of the graph are well-formed. -/
abbrev EdgesOK (g : Graph) : Prop :=
  ∀ p ∈ g.adjacency_list, ∀ e ∈ p.2, edgeOK e

/-- Graph states reachable by any sequence of `addNode`, `addEdge` and
`applyLearnedPatterns` calls, the latter for every outcome of the random
draws. -/
inductive Reachable : Graph → Prop where
  | empty : Reachable Graph.empty
  | addNode (g : Graph) (id : Int) (lat lon : ℚ) :
      Reachable g → Reachable (g.addNode id lat lon)
  | addEdge (g : Graph) (f t : Int) (d : ℚ) (rc : String) :
      Reachable g → Reachable (g.addEdge f t d rc)
  | learned (g : Graph) (draw : Int → Nat → ℚ) :
      Reachable g → Reachable (g.applyLearnedPatterns draw)

/-! ## Helper lemmas about the association-list maps -/

theorem alookup_aupdate_self (m : List (Int × α)) (k : Int) (v : α) (d : α) :
    alookup d (aupdate m k v) k = v := by
  induction m with
  | nil => simp [aupdate, alookup]
  | cons p rest ih =>
    obtain ⟨k', v'⟩ := p
    by_cases h : k' = k
    · simp [aupdate, h, alookup]
    · simp [aupdate, h, alookup, ih]

theorem alookup_aupdate_ne (m : List (Int × α)) (k k' : Int) (v : α) (d : α)
    (h : k' ≠ k) : alookup d (aupdate m k v) k' = alookup d m k' := by
  have h' : k ≠ k' := Ne.symm h
  induction m with
  | nil => simp [aupdate, alookup, h']
  | cons p rest ih =>
    obtain ⟨k₀, v₀⟩ := p
    by_cases hk : k₀ = k
    · subst hk
      simp [aupdate, alookup, h']
    · simp [aupdate, hk, alookup, ih]

theorem mem_aupdate {m : List (Int × α)} {k : Int} {v : α} {p : Int × α}
    (hp : p ∈ aupdate m k v) : p ∈ m ∨ p = (k, v) := by
  induction m with
  | nil => simp [aupdate] at hp; simp [hp]
  | cons q rest ih =>
    obtain ⟨k₀, v₀⟩ := q
    by_cases hk : k₀ = k
    · simp [aupdate, hk] at hp
      rcases hp with h | h
      · right; simp [h]
      · left; simp [h]
    · simp [aupdate, hk] at hp
      rcases hp with h | h
      · left; simp [h]
      · rcases ih h with h' | h'
        · left; simp [h']
        · right; exact h'

theorem alookup_mem_or_default (d : α) (m : List (Int × α)) (k : Int) :
    alookup d m k = d ∨ (k, alookup d m k) ∈ m := by
  induction m with
  | nil => left; simp [alookup]
  | cons p rest ih =>
    obtain ⟨k', v'⟩ := p
    by_cases h : k' = k
    · right; simp [alookup, h]
    · rcases ih with h' | h'
      · left; simpa [alookup, h] using h'
      · right; simp [alookup, h]
        right; exact h'

/-! ## Edge insertion -/

theorem getEdges_addEdge (g : Graph) (f t : Int) (d : ℚ) (rc : String) :
    (g.addEdge f t d rc).getEdges f =
      some ((g.getEdges f).getD [] ++
        [{ to_id := t, distance := d, speed_limit := speedLimitFor rc,
           road_type := rc, crowd_multiplier := 1 }]) := by
  have aux : ∀ (l : List (Int × List Edge)) (k : Int) (e : Edge),
      ((addEdgeAux e l k).find? (fun p => p.1 == k)).map Prod.snd =
        some (((l.find? (fun p => p.1 == k)).map Prod.snd).getD [] ++ [e]) := by
    intro l k e
    induction l with
    | nil => simp [addEdgeAux]
    | cons p rest ih =>
      obtain ⟨k₀, es⟩ := p
      by_cases hk : k₀ = k
      · subst hk; simp [addEdgeAux]
      · simp [addEdgeAux, hk, ih]
  exact aux g.adjacency_list f _

/-- Claim C9: `addEdge` derives the stored speed limit from the road class by
the fixed table (with default 50 for unrecognized tokens), a deterministic
total function, and the stored crowd multiplier initializes to 1.0. -/
theorem claim_C9 :
    (∀ (g : Graph) (f t : Int) (d : ℚ) (rc : String),
      (g.addEdge f t d rc).getEdges f =
        some ((g.getEdges f).getD [] ++
          [{ to_id := t, distance := d, speed_limit := speedLimitFor rc,
             road_type := rc, crowd_multiplier := 1 }])) ∧
    (∀ rc : String,
      rc ∉ (["motorway", "motorway_link", "trunk", "trunk_link", "primary",
             "primary_link", "secondary", "tertiary", "residential",
             "living_street"] : List String) → speedLimitFor rc = 50) ∧
    speedLimitFor ("motorway") = 100 ∧ speedLimitFor ("motorway_link") = 100 ∧
    speedLimitFor ("trunk") = 80 ∧ speedLimitFor ("trunk_link") = 80 ∧
    speedLimitFor ("primary") = 65 ∧ speedLimitFor ("primary_link") = 65 ∧
    speedLimitFor ("secondary") = 55 ∧ speedLimitFor ("tertiary") = 40 ∧
    speedLimitFor ("residential") = 40 ∧ speedLimitFor ("living_street") = 20 := by
  refine ⟨fun g f t d rc => getEdges_addEdge g f t d rc, ?_, ?_, ?_, ?_, ?_, ?_, ?_, ?_, ?_, ?_, ?_⟩
  · intro rc hrc
    simp only [List.mem_cons, List.not_mem_nil, or_false, not_or] at hrc
    obtain ⟨h1, h2, h3, h4, h5, h6, h7, h8, h9, h10⟩ := hrc
    simp [speedLimitFor, h1, h2, h3, h4, h5, h6, h7, h8, h9, h10]
  all_goals decide

/-- Claim C9 witness: the default branch of the table at a concrete
unrecognized token. -/
theorem claim_C9_witness : speedLimitFor ("unclassified") = 50 :=
  claim_C9.2.1 "unclassified" (by decide)

/-- A concrete motorway edge used as a test vector. -/
def eW : Edge :=
  { to_id := 2, distance := 100, speed_limit := 100,
    road_type := "motorway", crowd_multiplier := 1 }

/-- A two-node, one-edge graph used as a test vector. -/
def gW : Graph :=
  ((Graph.empty.addNode 1 0 0).addNode 2 0 0).addEdge 1 2 100 "residential"

/-- Claim C3, counterexample: `addEdge` called with a negative distance does
store the edge (no rejection), and `dijkstra` called with `hour_of_day = 24`
produces an ordinary result instead of rejecting the call. -/
theorem claim_C3_counterexample :
    (Graph.empty.addEdge 1 2 (-5) "residential").getEdges 1 =
      some [{ to_id := 2, distance := -5, speed_limit := 40,
              road_type := "residential", crowd_multiplier := 1 }] ∧
    (Graph.empty.addEdge 1 2 (-5) "residential").edgeCount = 1 ∧
    gW.dijkstra 1 2 RouteMode.LEARNED 24 =
      some { path := [1, 2], total_distance := 100, estimated_time := 9,
             mode := RouteMode.LEARNED,
             mode_name := "Learned Patterns (Advanced)" } := by
  refine ⟨by decide, by decide, ?_⟩
  simp only [Graph.dijkstra, dijkstraFuel, fuelBound, Graph.nodeCount, Graph.edgeCount,
    dijkstraLoop, popMin, pqMin, relaxEdges, initDist, reconstructLoop, routeMetrics,
    dlookup, plookup, alookup, aupdate, qltOpt, qgtOpt, Graph.getEdges, Graph.getNode,
    calculateEdgeWeight, getTimeAdjustedSpeed, emptyResult, modeName,
    Graph.addEdge, Graph.addNode, addEdgeAux, Graph.empty, gW]
  simp [dijkstraLoop, popMin, pqMin, relaxEdges, reconstructLoop, routeMetrics,
    dlookup, plookup, alookup, aupdate, qltOpt, qgtOpt, calculateEdgeWeight,
    getTimeAdjustedSpeed, Graph.getEdges, Graph.getNode]
  norm_num

/-- Claim C3 (amended): precondition violations are accepted silently, not
rejected: `addEdge` stores the edge for every distance, negative included,
and `dijkstra`'s cost computation treats every `hour_of_day` outside [0,23]
as non-rush, producing the same edge costs as a mid-day hour. -/
theorem claim_C3_amended :
    (∀ (g : Graph) (f t : Int) (d : ℚ) (rc : String),
      (g.addEdge f t d rc).getEdges f =
        some ((g.getEdges f).getD [] ++
          [{ to_id := t, distance := d, speed_limit := speedLimitFor rc,
             road_type := rc, crowd_multiplier := 1 }])) ∧
    (∀ (e : Edge) (mode : RouteMode) (h : Int), h < 0 ∨ 23 < h →
      calculateEdgeWeight e mode h = calculateEdgeWeight e mode 12) := by
  refine ⟨fun g f t d rc => getEdges_addEdge g f t d rc, ?_⟩
  intro e mode h hh
  have hr : ¬ ((7 ≤ h ∧ h ≤ 9) ∨ (17 ≤ h ∧ h ≤ 19)) := by omega
  have h12 : ¬ ((7 ≤ (12 : Int) ∧ (12 : Int) ≤ 9) ∨
      (17 ≤ (12 : Int) ∧ (12 : Int) ≤ 19)) := by omega
  cases mode <;> simp [calculateEdgeWeight, getTimeAdjustedSpeed, hr, h12]

/-- Claim C3 witness: the amended statement at a negative-distance insertion
and at the out-of-range hour 24. -/
theorem claim_C3_amended_witness :
    (Graph.empty.addEdge 1 2 (-5) "residential").getEdges 1 =
      some ((Graph.empty.getEdges 1).getD [] ++
        [{ to_id := 2, distance := -5, speed_limit := speedLimitFor ("residential"),
           road_type := "residential", crowd_multiplier := 1 }]) ∧
    calculateEdgeWeight eW RouteMode.LEARNED 24 =
      calculateEdgeWeight eW RouteMode.LEARNED 12 :=
  ⟨claim_C3_amended.1 Graph.empty 1 2 (-5) "residential",
   claim_C3_amended.2 eW RouteMode.LEARNED 24 (Or.inr (by norm_num))⟩

/-- Claim C5: each mode's edge cost equals its reference formula; Distance
and SpeedLimit costs are independent of hour and crowd multiplier, and
Learned is the only mode sensitive to either. -/
theorem claim_C5 :
    (∀ (e : Edge) (h : Int),
      calculateEdgeWeight e RouteMode.DISTANCE h = e.distance) ∧
    (∀ (e : Edge) (h : Int),
      calculateEdgeWeight e RouteMode.SPEED_LIMIT h =
        e.distance / (e.speed_limit * 1000 / 3600)) ∧
    (∀ (e : Edge) (h h' : Int) (c : ℚ),
      calculateEdgeWeight { e with crowd_multiplier := c }
          RouteMode.SPEED_LIMIT h =
        calculateEdgeWeight e RouteMode.SPEED_LIMIT h') ∧
    (∀ (e : Edge) (h : Int),
      calculateEdgeWeight e RouteMode.LEARNED h =
        e.distance /
          (getTimeAdjustedSpeed e h * e.crowd_multiplier * 1000 / 3600)) ∧
    (∃ (e : Edge) (h h' : Int),
      calculateEdgeWeight e RouteMode.LEARNED h ≠
        calculateEdgeWeight e RouteMode.LEARNED h') ∧
    (∃ (e : Edge) (c : ℚ),
      calculateEdgeWeight { e with crowd_multiplier := c }
          RouteMode.LEARNED 12 ≠
        calculateEdgeWeight e RouteMode.LEARNED 12) :=
  ⟨fun _ _ => rfl, fun _ _ => rfl, fun _ _ _ _ => rfl, fun _ _ => rfl,
   ⟨eW, 8, 12, by norm_num [calculateEdgeWeight, getTimeAdjustedSpeed, eW]⟩,
   ⟨eW, 2, by norm_num [calculateEdgeWeight, getTimeAdjustedSpeed, eW]⟩⟩

/-- Claim C6: the time-adjusted speed is the stored speed limit times exactly
one factor: 0.4 for motorway/trunk, 0.6 for primary, 0.8 for
secondary/tertiary and 1.0 otherwise during the rush hours {7,8,9} and
{17,18,19}, and 1.0 for every class outside those hours. -/
theorem claim_C6 (e : Edge) (h : Int) :
    getTimeAdjustedSpeed e h = e.speed_limit * claimRushFactor e.road_type h := by
  unfold getTimeAdjustedSpeed claimRushFactor
  split_ifs <;> ring

/-! ## Start equals end -/

/-- Claim C8: for every graph, mode and hour, `dijkstra(start, start, mode,
hour)` returns the single-node path `[start]` with zero total distance and
zero estimated time. -/
theorem claim_C8 (g : Graph) (s : Int) (mode : RouteMode) (hour : Int) :
    g.dijkstra s s mode hour =
      some { path := [s], total_distance := 0, estimated_time := 0,
             mode := mode, mode_name := modeName mode } := by
  simp [Graph.dijkstra, dijkstraFuel, dijkstraLoop, popMin, pqMin,
    List.erase_cons_head, reconstructLoop, routeMetrics, dlookup,
    alookup_aupdate_self, initDist]

/-! ## Divergence of `dijkstra` when the end identity is absent

When `end_id` is not a key of `nodes`, `distances[end_id]` reads the
value-initialized `0.0` instead of the infinity sentinel, so the
`// No path found` guard does not fire and the predecessor walk
`current = previous[current]` cycles on the value-initialized id `0`
forever.  The theorems below show the run completes for no amount of fuel,
i.e. the C++ loop never terminates. -/

theorem reconstruct_stuck (prev : PrevMap) (s c : Int) (hc : c ≠ s)
    (hloop : plookup prev c = c) :
    ∀ (fuel : Nat) (acc : List Int), reconstructLoop prev s fuel c acc = none := by
  intro fuel
  induction fuel with
  | zero => intro acc; simp [reconstructLoop, hc]
  | succ f ih => intro acc; simp [reconstructLoop, hc, hloop, ih]

/-- A one-node graph with no edges; node 2 does not exist. -/
def gC1 : Graph := Graph.empty.addNode 1 0 0

/-- Claim C1: searching from existing node 1 to absent node 2 in `gC1` never
returns, for any fuel: the claim's promised empty-path RouteResult is never
produced, because `distances[2]` default-initializes to `0.0` (not infinity)
and the predecessor walk then cycles at the default id `0` forever. -/
theorem claim_C1_divergence (f₁ f₂ : Nat) :
    dijkstraFuel f₁ f₂ gC1 1 2 RouteMode.DISTANCE 12 = none := by
  have hstuck : ∀ fuel acc, reconstructLoop [] 1 fuel 0 acc = none :=
    reconstruct_stuck [] 1 0 (by decide) (by decide)
  cases f₁ with
  | zero =>
    simp [dijkstraFuel, dijkstraLoop, popMin, pqMin, initDist, gC1, Graph.addNode,
      Graph.empty, aupdate, dlookup, alookup, qgtOpt, Graph.getEdges]
  | succ n =>
    cases f₂ with
    | zero =>
      simp [dijkstraFuel, dijkstraLoop, popMin, pqMin, initDist, gC1, Graph.addNode,
        Graph.empty, aupdate, dlookup, plookup, alookup, qgtOpt, Graph.getEdges,
        reconstructLoop]
    | succ m =>
      simp [dijkstraFuel, dijkstraLoop, popMin, pqMin, initDist, gC1, Graph.addNode,
        Graph.empty, aupdate, dlookup, plookup, alookup, qgtOpt, Graph.getEdges,
        reconstructLoop, hstuck]

/-- The single stored edge of `gC2`. -/
def eC2 : Edge :=
  { to_id := 2, distance := 5, speed_limit := 40,
    road_type := "residential", crowd_multiplier := 1 }

/-- A one-node graph with an edge to absent node 2. -/
def gC2 : Graph := (Graph.empty.addNode 1 0 0).addEdge 1 2 5 "residential"

/-- The graph `gC2` written as a literal. -/
def gC2lit : Graph := ⟨[(1, ⟨1, 0, 0⟩)], [(1, [eC2])]⟩

/-- Claim C2: the search from node 1 to absent node 2 in `gC2` does not
terminate: the model returns a result for no amount of fuel.  Here the main
loop does finish (the relaxation into the unknown node 2 fails against its
default distance 0.0), but `distances[2] = 0.0` is not the infinity
sentinel, so reconstruction runs and cycles at the default predecessor id
`0` forever. -/
theorem claim_C2_divergence (f₁ f₂ : Nat) :
    dijkstraFuel f₁ f₂ gC2 1 2 RouteMode.DISTANCE 12 = none := by
  have hstuck : ∀ fuel acc, reconstructLoop [] 1 fuel 0 acc = none :=
    reconstruct_stuck [] 1 0 (by decide) (by decide)
  have hg : gC2 = gC2lit := by
    simp [gC2, gC2lit, Graph.addNode, Graph.addEdge, addEdgeAux, Graph.empty,
      aupdate, eC2]
  have hloop : ∀ n : Nat, dijkstraLoop gC2lit RouteMode.DISTANCE 12 2 n [(0, 1)]
      [(1, some 0)] [] = if n = 0 then none else some ([(1, some 0)], []) := by
    intro n
    cases n with
    | zero => simp [dijkstraLoop, popMin, pqMin, List.erase_cons_head]
    | succ m =>
      unfold dijkstraLoop
      simp only [popMin, pqMin, List.erase_cons_head]
      have h1 : qgtOpt 0 (dlookup [(1, some 0)] 1) = false := by decide
      have h2 : gC2lit.getEdges 1 = some [eC2] := by decide
      have h3 : relaxEdges RouteMode.DISTANCE 12 0 1 [eC2] [] [(1, some 0)] [] =
          ([], [(1, some 0)], []) := by
        simp [relaxEdges, eC2, calculateEdgeWeight, qltOpt, dlookup, alookup]
      simp only [h1, h2, h3, Bool.false_eq_true, if_false]
      simp [dijkstraLoop, popMin]
  rw [hg]
  unfold dijkstraFuel
  have hinit : initDist gC2lit 1 = [(1, some 0)] := by decide
  rw [hinit, hloop f₁]
  cases f₁ with
  | zero => simp
  | succ m =>
    have hif : (if m + 1 = 0 then (none : Option (DistMap × PrevMap))
        else some ([(1, some 0)], [])) = some ([(1, some 0)], []) := by simp
    rw [hif]
    have hend : dlookup [(1, some 0)] 2 = some 0 := by decide
    simp only [hend, Option.isNone_some, Bool.false_eq_true, if_false]
    cases f₂ with
    | zero => simp [reconstructLoop, plookup, alookup]
    | succ k => simp [reconstructLoop, plookup, alookup, hstuck]

/-! ## Metric aggregation -/

theorem routeMetrics_eq (g : Graph) (hour : Int) :
    ∀ p : List Int,
      routeMetrics g hour p = (claimDistanceSum g p, claimTimeSum g hour p) := by
  intro p
  induction p with
  | nil => simp [routeMetrics, claimDistanceSum, claimTimeSum]
  | cons u rest ih =>
    cases rest with
    | nil => simp [routeMetrics, claimDistanceSum, claimTimeSum]
    | cons v rest' =>
      simp only [routeMetrics, claimDistanceSum, claimTimeSum, firstEdgeTo]
      rw [ih]
      cases hfe : (g.getEdges u).bind (fun es => es.find? (fun e => e.to_id == v)) with
      | none => simp [hfe]
      | some ed => simp [hfe]

/-- Claim C4: whenever a search returns a result, the reported metrics obey
the spec's mode-independent formulas: `total_distance` is the sum of the
constituent edges' stored distances, and `estimated_time` is the sum of the
Learned-style per-edge times (time-adjusted speed times crowd multiplier),
regardless of which mode chose the path. -/
theorem claim_C4 (g : Graph) (s e : Int) (mode : RouteMode) (hour : Int)
    (r : RouteResult) (hr : g.dijkstra s e mode hour = some r)
    (hne : r.path ≠ []) :
    r.total_distance = claimDistanceSum g r.path ∧
    r.estimated_time = claimTimeSum g hour r.path := by
  unfold Graph.dijkstra dijkstraFuel at hr
  cases hl : dijkstraLoop g mode hour e (fuelBound g) [(0, s)] (initDist g s) [] with
  | none => rw [hl] at hr; simp at hr
  | some dp =>
    obtain ⟨dist, prev⟩ := dp
    rw [hl] at hr
    dsimp only [] at hr
    by_cases hn : (dlookup dist e).isNone = true
    · rw [if_pos hn] at hr
      injection hr with hr'
      subst hr'
      simp [emptyResult] at hne
    · rw [if_neg hn] at hr
      cases hrec : reconstructLoop prev s (fuelBound g) e [] with
      | none => rw [hrec] at hr; simp at hr
      | some path =>
        rw [hrec] at hr
        injection hr with hr'
        subst hr'
        simp [routeMetrics_eq]

/-- The result of `dijkstra 1 2` on `gW` in Distance mode at noon. -/
def rW : RouteResult :=
  { path := [1, 2], total_distance := 100, estimated_time := 9,
    mode := RouteMode.DISTANCE, mode_name := "Pure Distance" }

/-- Claim C4 witness: the metric formulas at the concrete run on `gW`. -/
theorem claim_C4_witness :
    rW.total_distance = claimDistanceSum gW rW.path ∧
    rW.estimated_time = claimTimeSum gW 12 rW.path :=
  claim_C4 gW 1 2 RouteMode.DISTANCE 12 rW
    (by
      simp only [Graph.dijkstra, dijkstraFuel, fuelBound, Graph.nodeCount,
        Graph.edgeCount, dijkstraLoop, popMin, pqMin, relaxEdges, initDist,
        reconstructLoop, routeMetrics, dlookup, plookup, alookup, aupdate, qltOpt,
        qgtOpt, Graph.getEdges, Graph.getNode, calculateEdgeWeight,
        getTimeAdjustedSpeed, emptyResult, modeName, Graph.addEdge, Graph.addNode,
        addEdgeAux, Graph.empty, gW, rW]
      simp [dijkstraLoop, popMin, pqMin, relaxEdges, reconstructLoop, routeMetrics,
        dlookup, plookup, alookup, aupdate, qltOpt, qgtOpt, calculateEdgeWeight,
        getTimeAdjustedSpeed, Graph.getEdges, Graph.getNode]
      norm_num)
    (by simp [rW])

/-! ## Positivity of stored speed limits and crowd multipliers -/

theorem speedLimitFor_pos (rc : String) : 0 < speedLimitFor rc := by
  unfold speedLimitFor
  split_ifs <;> norm_num

theorem mem_addEdgeAux {e : Edge} {l : List (Int × List Edge)} {k : Int}
    {p : Int × List Edge} (hp : p ∈ addEdgeAux e l k) :
    ∀ e' ∈ p.2, e' = e ∨ ∃ q ∈ l, e' ∈ q.2 := by
  induction l with
  | nil =>
    simp only [addEdgeAux, List.mem_singleton] at hp
    intro e' he'
    rw [hp] at he'
    simp at he'
    exact Or.inl he'
  | cons q rest ih =>
    obtain ⟨k₀, es⟩ := q
    by_cases hk : k₀ = k
    · rw [addEdgeAux, if_pos hk] at hp
      intro e' he'
      rcases List.mem_cons.mp hp with h | h
      · rw [h] at he'
        simp only [List.mem_append, List.mem_singleton] at he'
        rcases he' with h' | h'
        · exact Or.inr ⟨(k₀, es), by simp, h'⟩
        · exact Or.inl h'
      · exact Or.inr ⟨p, by simp [h], he'⟩
    · rw [addEdgeAux, if_neg hk] at hp
      intro e' he'
      rcases List.mem_cons.mp hp with h | h
      · exact Or.inr ⟨p, by simp [h], he'⟩
      · rcases ih h e' he' with h' | ⟨q', hq', hm⟩
        · exact Or.inl h'
        · exact Or.inr ⟨q', by simp [hq'], hm⟩

theorem mem_annotateEdges {draw : Nat → ℚ} :
    ∀ {i : Nat} {es : List Edge} {e' : Edge}, e' ∈ annotateEdges draw i es →
      ∃ e ∈ es, ∃ r, e' = learnedUpdate r e := by
  intro i es
  induction es generalizing i with
  | nil => intro e' h; simp [annotateEdges] at h
  | cons a as ih =>
    intro e' h
    simp only [annotateEdges, List.mem_cons] at h
    rcases h with h | h
    · exact ⟨a, by simp, draw i, h⟩
    · obtain ⟨e, he, r, hr⟩ := ih h
      exact ⟨e, by simp [he], r, hr⟩

theorem learnedUpdate_fields (r : ℚ) (e : Edge) :
    (learnedUpdate r e).to_id = e.to_id ∧
    (learnedUpdate r e).distance = e.distance ∧
    (learnedUpdate r e).speed_limit = e.speed_limit ∧
    (learnedUpdate r e).road_type = e.road_type ∧
    ((learnedUpdate r e).crowd_multiplier = e.crowd_multiplier ∨
     (learnedUpdate r e).crowd_multiplier = 0.6 ∨
     (learnedUpdate r e).crowd_multiplier = 1.4 ∨
     (learnedUpdate r e).crowd_multiplier = 1.2) := by
  unfold learnedUpdate
  split_ifs <;> simp

/-- Claim C10: after any sequence of `addNode`, `addEdge` and
`applyLearnedPatterns` calls (for every outcome of the draws), every stored
edge has a strictly positive speed limit and crowd multiplier; `addEdge`
stores only the positive table speeds with multiplier 1.0, and
`applyLearnedPatterns` only ever overwrites a multiplier with 0.6, 1.4 or
1.2, touching no node and no other edge field. -/
theorem claim_C10 :
    (∀ (r : ℚ) (e : Edge),
      (learnedUpdate r e).to_id = e.to_id ∧
      (learnedUpdate r e).distance = e.distance ∧
      (learnedUpdate r e).speed_limit = e.speed_limit ∧
      (learnedUpdate r e).road_type = e.road_type ∧
      ((learnedUpdate r e).crowd_multiplier = e.crowd_multiplier ∨
       (learnedUpdate r e).crowd_multiplier = 0.6 ∨
       (learnedUpdate r e).crowd_multiplier = 1.4 ∨
       (learnedUpdate r e).crowd_multiplier = 1.2)) ∧
    (∀ (g : Graph) (draw : Int → Nat → ℚ),
      (g.applyLearnedPatterns draw).nodes = g.nodes) ∧
    (∀ rc : String, 0 < speedLimitFor rc) ∧
    (∀ g : Graph, Reachable g →
      ∀ p ∈ g.adjacency_list, ∀ e ∈ p.2,
        0 < e.speed_limit ∧ 0 < e.crowd_multiplier) := by
  refine ⟨learnedUpdate_fields, fun g draw => rfl, speedLimitFor_pos, ?_⟩
  intro g hg
  induction hg with
  | empty => simp [Graph.empty]
  | addNode g id lat lon hg ih => exact ih
  | addEdge g f t d rc hg ih =>
    intro p hp e' he'
    simp only [Graph.addEdge] at hp
    rcases mem_addEdgeAux hp e' he' with h | ⟨q, hq, he⟩
    · rw [h]
      exact ⟨speedLimitFor_pos rc, by norm_num⟩
    · exact ih q hq e' he
  | learned g draw hg ih =>
    intro p hp e' he'
    simp only [Graph.applyLearnedPatterns, List.mem_map] at hp
    obtain ⟨q, hq, rfl⟩ := hp
    obtain ⟨e, he, r, rfl⟩ := mem_annotateEdges he'
    have h0 := ih q hq e he
    have hf := learnedUpdate_fields r e
    refine ⟨by rw [hf.2.2.1]; exact h0.1, ?_⟩
    rcases hf.2.2.2.2 with h | h | h | h <;> rw [h]
    · exact h0.2
    all_goals norm_num

/-- Claim C10 witness: the invariant at the concrete reachable graph `gC2`. -/
theorem claim_C10_witness : 0 < eC2.speed_limit ∧ 0 < eC2.crowd_multiplier :=
  claim_C10.2.2.2 gC2
    (Reachable.addEdge _ 1 2 5 "residential"
      (Reachable.addNode _ 1 0 0 Reachable.empty))
    (1, [eC2]) (by decide) eC2 (by decide)

/-! ## Dead-end behavior of edges to unknown nodes

`StateInv` is the search-state invariant of `Graph::dijkstra` under
well-formed edges: frontier entries carry non-negative distances and only
the start id or known node ids; unknown non-start identities keep the
value-initialized default distance `0.0` (they are never successfully
relaxed); the predecessor table maps known nodes to the start id or known
nodes. -/

structure StateInv (g : Graph) (s : Int) (pq : PQueue) (dist : DistMap)
    (prev : PrevMap) : Prop where
  pq_inv : ∀ x ∈ pq, 0 ≤ x.1 ∧ (x.2 = s ∨ nodeKnown g x.2)
  dist_unknown : ∀ v : Int, ¬ nodeKnown g v → v ≠ s → dlookup dist v = some 0
  dist_start : ∃ q : ℚ, dlookup dist s = some q ∧ q ≤ 0
  prev_keys : ∀ x ∈ prev, nodeKnown g x.1
  prev_vals : ∀ x ∈ prev, x.2 = s ∨ nodeKnown g x.2

theorem getTimeAdjustedSpeed_pos (e : Edge) (hour : Int)
    (h : 0 < e.speed_limit) : 0 < getTimeAdjustedSpeed e hour := by
  unfold getTimeAdjustedSpeed
  split_ifs <;> first | exact h | exact mul_pos h (by norm_num)

theorem weight_nonneg (e : Edge) (mode : RouteMode) (hour : Int)
    (hd : 0 ≤ e.distance) (hs : 0 < e.speed_limit)
    (hc : 0 < e.crowd_multiplier) : 0 ≤ calculateEdgeWeight e mode hour := by
  cases mode with
  | DISTANCE => exact hd
  | SPEED_LIMIT =>
    exact div_nonneg hd (div_nonneg (mul_nonneg hs.le (by norm_num)) (by norm_num))
  | LEARNED =>
    have ht := getTimeAdjustedSpeed_pos e hour hs
    exact div_nonneg hd
      (div_nonneg (mul_nonneg (mul_nonneg ht.le hc.le) (by norm_num)) (by norm_num))

theorem pqMin_mem (a : ℚ × Int) (l : PQueue) : pqMin a l ∈ a :: l := by
  induction l generalizing a with
  | nil => simp [pqMin]
  | cons b rest ih =>
    simp only [pqMin]
    by_cases h : b.1 < a.1 ∨ (b.1 = a.1 ∧ b.2 < a.2)
    · rw [if_pos h]
      rcases List.mem_cons.mp (ih b) with h' | h'
      · simp [h']
      · simp [h']
    · rw [if_neg h]
      rcases List.mem_cons.mp (ih a) with h' | h'
      · simp [h']
      · simp [h']

theorem popMin_mem {pq : PQueue} {x : ℚ × Int} {rest : PQueue}
    (h : popMin pq = some (x, rest)) : x ∈ pq := by
  cases pq with
  | nil => simp [popMin] at h
  | cons a l =>
    simp only [popMin] at h
    injection h with h'
    have hx : pqMin a l = x := congrArg Prod.fst h'
    rw [← hx]
    exact pqMin_mem a l

theorem popMin_rest {pq : PQueue} {x : ℚ × Int} {rest : PQueue}
    (h : popMin pq = some (x, rest)) : ∀ y ∈ rest, y ∈ pq := by
  cases pq with
  | nil => simp [popMin] at h
  | cons a l =>
    simp only [popMin] at h
    injection h with h'
    have hr : (a :: l).erase (pqMin a l) = rest := congrArg Prod.snd h'
    intro y hy
    rw [← hr] at hy
    exact List.mem_of_mem_erase hy

theorem edges_of_getEdges {g : Graph} (hg : EdgesOK g) {u : Int}
    {es : List Edge} (h : g.getEdges u = some es) : ∀ e ∈ es, edgeOK e := by
  unfold Graph.getEdges at h
  cases hf : g.adjacency_list.find? (fun p => p.1 == u) with
  | none => rw [hf] at h; simp at h
  | some p =>
    rw [hf] at h
    simp only [Option.map_some', Option.some.injEq] at h
    have hp := List.mem_of_find?_eq_some hf
    intro e he
    exact hg p hp e (by rw [h]; exact he)

theorem relax_preserves (g : Graph) (s : Int) (mode : RouteMode) (hour : Int)
    (d : ℚ) (u : Int) (hd : 0 ≤ d) (hu : u = s ∨ nodeKnown g u) :
    ∀ (es : List Edge) (pq : PQueue) (dist : DistMap) (prev : PrevMap),
      (∀ e ∈ es, edgeOK e) → StateInv g s pq dist prev →
      StateInv g s (relaxEdges mode hour d u es pq dist prev).1
        (relaxEdges mode hour d u es pq dist prev).2.1
        (relaxEdges mode hour d u es pq dist prev).2.2 := by
  intro es
  induction es with
  | nil =>
    intro pq dist prev _ hinv
    simpa [relaxEdges] using hinv
  | cons e es ih =>
    intro pq dist prev hok hinv
    have hOK := hok e (by simp)
    have hw : 0 ≤ calculateEdgeWeight e mode hour :=
      weight_nonneg e mode hour hOK.1 hOK.2.1 hOK.2.2
    have hnd : 0 ≤ d + calculateEdgeWeight e mode hour := by linarith
    have hok' : ∀ e' ∈ es, edgeOK e' := fun e' he' => hok e' (by simp [he'])
    by_cases hq :
        qltOpt (d + calculateEdgeWeight e mode hour) (dlookup dist e.to_id) = true
    · have hknown : nodeKnown g e.to_id ∧ e.to_id ≠ s := by
        by_cases hks : e.to_id = s
        · exfalso
          obtain ⟨q0, hq0, hq0le⟩ := hinv.dist_start
          rw [hks, hq0] at hq
          simp only [qltOpt, decide_eq_true_eq] at hq
          linarith
        · by_cases hkn : nodeKnown g e.to_id
          · exact ⟨hkn, hks⟩
          · exfalso
            rw [hinv.dist_unknown e.to_id hkn hks] at hq
            simp only [qltOpt, decide_eq_true_eq] at hq
            linarith
      simp only [relaxEdges, hq, if_true]
      apply ih _ _ _ hok'
      constructor
      · intro x hx
        rcases List.mem_append.mp hx with h | h
        · exact hinv.pq_inv x h
        · simp only [List.mem_singleton] at h
          rw [h]
          exact ⟨hnd, Or.inr hknown.1⟩
      · intro v hv hvs
        have hvne : v ≠ e.to_id := fun he => hv (he ▸ hknown.1)
        unfold dlookup
        rw [alookup_aupdate_ne _ _ _ _ _ hvne]
        exact hinv.dist_unknown v hv hvs
      · obtain ⟨q0, hq0, hle⟩ := hinv.dist_start
        refine ⟨q0, ?_, hle⟩
        unfold dlookup
        rw [alookup_aupdate_ne _ _ _ _ _ (Ne.symm hknown.2)]
        exact hq0
      · intro x hx
        rcases mem_aupdate hx with h | h
        · exact hinv.prev_keys x h
        · rw [h]
          exact hknown.1
      · intro x hx
        rcases mem_aupdate hx with h | h
        · exact hinv.prev_vals x h
        · rw [h]
          exact hu
    · simp only [relaxEdges, hq, Bool.false_eq_true, if_false]
      exact ih _ _ _ hok' hinv

theorem loop_preserves (g : Graph) (s end_id : Int) (mode : RouteMode)
    (hour : Int) (hg : EdgesOK g) :
    ∀ (fuel : Nat) (pq : PQueue) (dist : DistMap) (prev : PrevMap)
      (out : DistMap × PrevMap),
      StateInv g s pq dist prev →
      dijkstraLoop g mode hour end_id fuel pq dist prev = some out →
      (∀ v : Int, ¬ nodeKnown g v → v ≠ s → dlookup out.1 v = some 0) ∧
      (∀ x ∈ out.2, nodeKnown g x.1) ∧
      (∀ x ∈ out.2, x.2 = s ∨ nodeKnown g x.2) := by
  intro fuel
  induction fuel with
  | zero =>
    intro pq dist prev out hinv hstep
    unfold dijkstraLoop at hstep
    cases hpop : popMin pq with
    | none =>
      rw [hpop] at hstep
      dsimp only [] at hstep
      injection hstep with h
      rw [← h]
      exact ⟨hinv.dist_unknown, hinv.prev_keys, hinv.prev_vals⟩
    | some du =>
      obtain ⟨⟨d, u⟩, pq'⟩ := du
      rw [hpop] at hstep
      dsimp only [] at hstep
      by_cases hu : u = end_id
      · rw [if_pos hu] at hstep
        injection hstep with h
        rw [← h]
        exact ⟨hinv.dist_unknown, hinv.prev_keys, hinv.prev_vals⟩
      · rw [if_neg hu] at hstep
        simp at hstep
  | succ n ih =>
    intro pq dist prev out hinv hstep
    unfold dijkstraLoop at hstep
    cases hpop : popMin pq with
    | none =>
      rw [hpop] at hstep
      dsimp only [] at hstep
      injection hstep with h
      rw [← h]
      exact ⟨hinv.dist_unknown, hinv.prev_keys, hinv.prev_vals⟩
    | some du =>
      obtain ⟨⟨d, u⟩, pq'⟩ := du
      rw [hpop] at hstep
      dsimp only [] at hstep
      have hmem := popMin_mem hpop
      have hdu := hinv.pq_inv _ hmem
      have hinv' : StateInv g s pq' dist prev :=
        { pq_inv := fun x hx => hinv.pq_inv x (popMin_rest hpop x hx),
          dist_unknown := hinv.dist_unknown,
          dist_start := hinv.dist_start,
          prev_keys := hinv.prev_keys,
          prev_vals := hinv.prev_vals }
      by_cases hu : u = end_id
      · rw [if_pos hu] at hstep
        injection hstep with h
        rw [← h]
        exact ⟨hinv.dist_unknown, hinv.prev_keys, hinv.prev_vals⟩
      · rw [if_neg hu] at hstep
        by_cases hstale : qgtOpt d (dlookup dist u) = true
        · rw [if_pos hstale] at hstep
          exact ih pq' dist prev out hinv' hstep
        · rw [if_neg hstale] at hstep
          cases hge : g.getEdges u with
          | none =>
            rw [hge] at hstep
            dsimp only [] at hstep
            exact ih pq' dist prev out hinv' hstep
          | some es =>
            rw [hge] at hstep
            dsimp only [] at hstep
            rcases hre : relaxEdges mode hour d u es pq' dist prev with
              ⟨pq2, dist2, prev2⟩
            rw [hre] at hstep
            dsimp only [] at hstep
            have hrel := relax_preserves g s mode hour d u hdu.1 hdu.2 es
              pq' dist prev (edges_of_getEdges hg hge) hinv'
            rw [hre] at hrel
            dsimp only [] at hrel
            exact ih pq2 dist2 prev2 out hrel hstep

theorem alookup_map_none (l : List (Int × Node)) (v : Int)
    (h : ∀ p ∈ l, p.1 ≠ v) :
    alookup (some 0) (l.map (fun p => (p.1, (none : Option ℚ)))) v = some 0 := by
  induction l with
  | nil => simp [alookup]
  | cons p rest ih =>
    simp only [List.map_cons, alookup]
    rw [if_neg (h p (by simp))]
    exact ih (fun q hq => h q (by simp [hq]))

theorem not_nodeKnown_keys {g : Graph} {v : Int} (hv : ¬ nodeKnown g v) :
    ∀ p ∈ g.nodes, p.1 ≠ v := by
  have h0 : g.getNode v = none := not_not.mp hv
  unfold Graph.getNode at h0
  rw [Option.map_eq_none'] at h0
  intro p hp he
  have := List.find?_eq_none.mp h0 p hp
  simp [he] at this

theorem initDist_inv (g : Graph) (s : Int) :
    StateInv g s [(0, s)] (initDist g s) [] := by
  constructor
  · intro x hx
    simp only [List.mem_singleton] at hx
    rw [hx]
    exact ⟨le_refl 0, Or.inl rfl⟩
  · intro v hv hvs
    unfold initDist dlookup
    rw [alookup_aupdate_ne _ _ _ _ _ hvs]
    exact alookup_map_none g.nodes v (not_nodeKnown_keys hv)
  · refine ⟨0, ?_, le_refl 0⟩
    unfold initDist dlookup
    rw [alookup_aupdate_self]
  · simp
  · simp

theorem reconstruct_sound (g : Graph) (prev : PrevMap) (s e0 : Int)
    (hk : ∀ x ∈ prev, nodeKnown g x.1)
    (hv : ∀ x ∈ prev, x.2 = s ∨ nodeKnown g x.2) :
    ∀ (fuel : Nat) (current : Int) (acc path : List Int),
      (current = s ∨ current = e0 ∨ nodeKnown g current) →
      (∀ w ∈ acc, w = s ∨ w = e0 ∨ nodeKnown g w) →
      reconstructLoop prev s fuel current acc = some path →
      ∀ w ∈ path, w = s ∨ w = e0 ∨ nodeKnown g w := by
  intro fuel
  induction fuel with
  | zero =>
    intro current acc path hcur hacc hstep
    unfold reconstructLoop at hstep
    by_cases hcs : current = s
    · rw [if_pos hcs] at hstep
      injection hstep with h
      rw [← h]
      intro w hw
      rcases List.mem_cons.mp hw with h' | h'
      · exact Or.inl h'
      · exact hacc w h'
    · rw [if_neg hcs] at hstep
      simp at hstep
  | succ n ih =>
    intro current acc path hcur hacc hstep
    unfold reconstructLoop at hstep
    by_cases hcs : current = s
    · rw [if_pos hcs] at hstep
      injection hstep with h
      rw [← h]
      intro w hw
      rcases List.mem_cons.mp hw with h' | h'
      · exact Or.inl h'
      · exact hacc w h'
    · rw [if_neg hcs] at hstep
      dsimp only [] at hstep
      have hacc' : ∀ w ∈ current :: acc, w = s ∨ w = e0 ∨ nodeKnown g w := by
        intro w hw
        rcases List.mem_cons.mp hw with h | h
        · rw [h]; exact hcur
        · exact hacc w h
      rcases alookup_mem_or_default 0 prev current with hdef | hmem
      · have hnext : plookup prev current = 0 := hdef
        rw [hnext] at hstep
        by_cases h0s : (0 : Int) = s
        · exact ih 0 (current :: acc) path (Or.inl h0s) hacc' hstep
        · rcases alookup_mem_or_default 0 prev 0 with hd0 | hm0
          · rw [reconstruct_stuck prev s 0 h0s hd0 n (current :: acc)] at hstep
            simp at hstep
          · exact ih 0 (current :: acc) path
              (Or.inr (Or.inr (hk _ hm0))) hacc' hstep
      · have := hv _ hmem
        refine ih (plookup prev current) (current :: acc) path ?_ hacc' hstep
        rcases this with h | h
        · exact Or.inl h
        · exact Or.inr (Or.inr h)

/-- A graph whose two stored edges have negative distances and whose middle
identity 2 is not a node. -/
def gNeg : Graph :=
  (((Graph.empty.addNode 1 0 0).addNode 3 0 0).addEdge 1 2 (-5)
    "residential").addEdge 2 3 (-5) "residential"

/-- Claim C7, counterexample: with negative stored distances (which `addEdge`
accepts), relaxation does succeed into the unknown identity 2 — its default
distance `0.0` is beaten by a negative tentative distance — and 2 appears as
an intermediate node of the returned path. -/
theorem claim_C7_counterexample :
    (gNeg.dijkstra 1 3 RouteMode.DISTANCE 12).map (fun r => r.path) =
      some [1, 2, 3] ∧ gNeg.getNode 2 = none := by
  refine ⟨?_, by decide⟩
  simp only [Graph.dijkstra, dijkstraFuel, fuelBound, Graph.nodeCount,
    Graph.edgeCount, dijkstraLoop, popMin, pqMin, relaxEdges, initDist,
    reconstructLoop, routeMetrics, dlookup, plookup, alookup, aupdate, qltOpt,
    qgtOpt, Graph.getEdges, Graph.getNode, calculateEdgeWeight,
    getTimeAdjustedSpeed, emptyResult, modeName, Graph.addEdge, Graph.addNode,
    addEdgeAux, Graph.empty, gNeg]
  simp [dijkstraLoop, popMin, pqMin, relaxEdges, reconstructLoop, routeMetrics,
    dlookup, plookup, alookup, aupdate, qltOpt, qgtOpt, calculateEdgeWeight,
    getTimeAdjustedSpeed, Graph.getEdges, Graph.getNode]

/-- Claim C7 (amended): provided every stored edge has a non-negative
distance, a positive speed limit and a positive crowd multiplier, an edge
whose target identity is not a node of the graph acts as a dead end:
relaxation never succeeds into an unknown non-start identity and never
inserts it into the frontier (the search-state invariant `StateInv` is
preserved by the relaxation loop), after the main loop every unknown
non-start identity still has the value-initialized default distance `0.0`
and every predecessor-table key is a known node, and every node of a
returned path is the start, the end, or a known node — so an unknown
identity never appears as an intermediate node of the returned path. -/
theorem claim_C7_amended (g : Graph) (hg : EdgesOK g) :
    (∀ (s : Int) (mode : RouteMode) (hour : Int) (d : ℚ) (u : Int)
       (es : List Edge) (pq : PQueue) (dist : DistMap) (prev : PrevMap),
       0 ≤ d → (u = s ∨ nodeKnown g u) → (∀ e ∈ es, edgeOK e) →
       StateInv g s pq dist prev →
       StateInv g s (relaxEdges mode hour d u es pq dist prev).1
         (relaxEdges mode hour d u es pq dist prev).2.1
         (relaxEdges mode hour d u es pq dist prev).2.2) ∧
    (∀ (s end_id : Int) (mode : RouteMode) (hour : Int) (fuel : Nat)
       (out : DistMap × PrevMap),
       dijkstraLoop g mode hour end_id fuel [(0, s)] (initDist g s) [] =
         some out →
       (∀ v : Int, ¬ nodeKnown g v → v ≠ s → dlookup out.1 v = some 0) ∧
       (∀ x ∈ out.2, nodeKnown g x.1)) ∧
    (∀ (s end_id : Int) (mode : RouteMode) (hour : Int) (r : RouteResult),
       g.dijkstra s end_id mode hour = some r →
       ∀ w ∈ r.path, w = s ∨ w = end_id ∨ nodeKnown g w) := by
  refine ⟨?_, ?_, ?_⟩
  · intro s mode hour d u es pq dist prev hd hu hok hinv
    exact relax_preserves g s mode hour d u hd hu es pq dist prev hok hinv
  · intro s end_id mode hour fuel out hstep
    have h := loop_preserves g s end_id mode hour hg fuel _ _ _ out
      (initDist_inv g s) hstep
    exact ⟨h.1, h.2.1⟩
  · intro s end_id mode hour r hr
    unfold Graph.dijkstra dijkstraFuel at hr
    cases hl : dijkstraLoop g mode hour end_id (fuelBound g) [(0, s)]
        (initDist g s) [] with
    | none => rw [hl] at hr; simp at hr
    | some dp =>
      obtain ⟨dist, prev⟩ := dp
      rw [hl] at hr
      dsimp only [] at hr
      have hout := loop_preserves g s end_id mode hour hg (fuelBound g) _ _ _
        (dist, prev) (initDist_inv g s) hl
      by_cases hn : (dlookup dist end_id).isNone = true
      · rw [if_pos hn] at hr
        injection hr with hr'
        rw [← hr']
        intro w hw
        simp [emptyResult] at hw
      · rw [if_neg hn] at hr
        cases hrec : reconstructLoop prev s (fuelBound g) end_id [] with
        | none => rw [hrec] at hr; simp at hr
        | some path =>
          rw [hrec] at hr
          injection hr with hr'
          rw [← hr']
          intro w hw
          exact reconstruct_sound g prev s end_id hout.2.1 hout.2.2
            (fuelBound g) end_id [] path (Or.inr (Or.inl rfl))
            (by intro w hw; simp at hw) hrec w hw

/-- Claim C7 witness: the path property of the amended claim applied at the
concrete run on `gW` with the node 2 of its returned path. -/
theorem claim_C7_witness : (2 : Int) = 1 ∨ (2 : Int) = 2 ∨ nodeKnown gW 2 :=
  (claim_C7_amended gW (by decide)).2.2 1 2 RouteMode.DISTANCE 12 rW
    (by
      simp only [Graph.dijkstra, dijkstraFuel, fuelBound, Graph.nodeCount,
        Graph.edgeCount, dijkstraLoop, popMin, pqMin, relaxEdges, initDist,
        reconstructLoop, routeMetrics, dlookup, plookup, alookup, aupdate, qltOpt,
        qgtOpt, Graph.getEdges, Graph.getNode, calculateEdgeWeight,
        getTimeAdjustedSpeed, emptyResult, modeName, Graph.addEdge, Graph.addNode,
        addEdgeAux, Graph.empty, gW, rW]
      simp [dijkstraLoop, popMin, pqMin, relaxEdges, reconstructLoop, routeMetrics,
        dlookup, plookup, alookup, aupdate, qltOpt, qgtOpt, calculateEdgeWeight,
        getTimeAdjustedSpeed, Graph.getEdges, Graph.getNode]
      norm_num)
    2 (by simp [rW])
